import Mathlib

/-!
Verification of the Yfrobot `MotorDriver_PCA9685` driver against its
specification.  The repository ships the class header
(`src/MotorDriver_PCA9685.h`), which fixes the register map, the mode bits,
the prescale bounds, the motor selectors and the in-class default values of
the private fields.  The method bodies live in a `.cpp` file that is not part
of the sources, so each operation below is modelled from the specification's
description of it; such definitions carry a doc comment starting with
`Modelled from the spec:`.
-/

namespace PCA9685

/-! ### Register addresses and constants, from `MotorDriver_PCA9685.h` -/

/-- Mode Register 1 address. -/
def PCA9685_MODE1 : ℕ := 0x00

/-- Mode Register 2 address. -/
def PCA9685_MODE2 : ℕ := 0x01

/-- LED0 on tick, low byte. -/
def PCA9685_LED0_ON_L : ℕ := 0x06

/-- LED0 on tick, high byte. -/
def PCA9685_LED0_ON_H : ℕ := 0x07

/-- LED0 off tick, low byte. -/
def PCA9685_LED0_OFF_L : ℕ := 0x08

/-- LED0 off tick, high byte. -/
def PCA9685_LED0_OFF_H : ℕ := 0x09

/-- Prescaler register for the PWM output frequency. -/
def PCA9685_PRESCALE : ℕ := 0xFE

/-- MODE1 bit: low power mode, oscillator off. -/
def MODE1_SLEEP : ℕ := 0x10

/-- MODE1 bit: auto-increment enabled. -/
def MODE1_AI : ℕ := 0x20

/-- MODE1 bit: restart enabled. -/
def MODE1_RESTART : ℕ := 0x80

/-- Default PCA9685 I2C slave address. -/
def PCA9685_I2C_ADDRESS : ℕ := 0x40

/-- Internal oscillator frequency from the datasheet, in Hz. -/
def FREQUENCY_OSCILLATOR : ℕ := 25000000

/-- Minimum prescale value. -/
def PCA9685_PRESCALE_MIN : ℤ := 3

/-- Maximum prescale value. -/
def PCA9685_PRESCALE_MAX : ℤ := 255

/-- Motor selector M1. -/
def M1 : ℕ := 1

/-- Motor selector M2. -/
def M2 : ℕ := 2

/-- Motor selector M3. -/
def M3 : ℕ := 3

/-- Motor selector M4. -/
def M4 : ℕ := 4

/-- Motor selector addressing all four motors. -/
def MAll : ℕ := 5

/-! ### setPWMFreq prescale computation (C1) -/

/-- Clamp a candidate prescale into `[PCA9685_PRESCALE_MIN, PCA9685_PRESCALE_MAX]`. -/
def clampPrescale (p : ℤ) : ℤ :=
  max PCA9685_PRESCALE_MIN (min PCA9685_PRESCALE_MAX p)

/-- Modelled from the spec: the body of `MotorDriver_PCA9685::setPWMFreq` is not
in the sources (only its declaration is).  The spec says it computes
`prescale = round(oscillator_freq / (4096 * freq)) - 1` and clamps the result
to `[PRESCALE_MIN, PRESCALE_MAX]`; out-of-range frequencies are silently
clamped, never reported (the function is total and returns no error). -/
def setPWMFreqPrescale (osc : ℕ) (freq : ℚ) : ℤ :=
  clampPrescale (round ((osc : ℚ) / (4096 * freq)) - 1)

/-! ### PWM channel state and `setPin` (C2, C7) -/

/-- Chip-resident PWM channel state: each channel holds an (on tick, off tick)
pair.  The chip does not cache this locally; the model keeps the pair per
channel number. -/
def ChannelState : Type := ℕ → ℕ × ℕ

/-- The fully-on register encoding: on tick 4096, off tick 0. -/
def fullOn : ℕ × ℕ := (4096, 0)

/-- The fully-off register encoding: on tick 0, off tick 4096. -/
def fullOff : ℕ × ℕ := (0, 4096)

/-- Modelled from the spec: `setPWM(num, on, off)` writes the channel's
(on tick, off tick) quad as one logical operation. -/
def setPWM (ch : ChannelState) (num onTick offTick : ℕ) : ChannelState :=
  fun n => if n = num then (onTick, offTick) else ch n

/-- Modelled from the spec: the value-to-register mapping of
`MotorDriver_PCA9685::setPin`, whose body is not in the sources.  The spec:
`val>=4096` → fully on, `val==0` → fully off (respecting `invert`), otherwise
write `(0, val)` or `(4096-val, 4095)` depending on invert. -/
def setPinPair (val : ℕ) (invert : Bool) : ℕ × ℕ :=
  if 4096 ≤ val then (if invert then fullOff else fullOn)
  else if val = 0 then (if invert then fullOn else fullOff)
  else if invert then (4096 - val, 4095) else (0, val)

/-- `setPin(num, val, invert)`: map the logical value and write it to the
channel via `setPWM`. -/
def setPin (ch : ChannelState) (num val : ℕ) (invert : Bool) : ChannelState :=
  setPWM ch num (setPinPair val invert).1 (setPinPair val invert).2

/-! ### Theorems for C1 -/

/-- C1: for every PWM frequency input `freq`, `setPWMFreq(freq)` computes the
prescale as `round(oscillator_freq / (4096 * freq)) - 1` clamped to
`[PCA9685_PRESCALE_MIN, PCA9685_PRESCALE_MAX] = [3, 255]`; the result is always
in range, and an out-of-range frequency is silently clamped (1 MHz clamps to
the minimum 3, 1/2 Hz clamps to the maximum 255), never reported as an error. -/
theorem setPWMFreq_prescale_clamped (osc : ℕ) (freq : ℚ) :
    setPWMFreqPrescale osc freq
      = max 3 (min 255 (round ((osc : ℚ) / (4096 * freq)) - 1)) ∧
    3 ≤ setPWMFreqPrescale osc freq ∧
    setPWMFreqPrescale osc freq ≤ 255 ∧
    setPWMFreqPrescale FREQUENCY_OSCILLATOR 1000000 = 3 ∧
    setPWMFreqPrescale FREQUENCY_OSCILLATOR (1/2) = 255 := by
  refine ⟨rfl, le_max_left _ _, ?_, ?_, ?_⟩
  · exact max_le (by norm_num [PCA9685_PRESCALE_MIN]) (min_le_left _ _)
  · show clampPrescale _ = 3
    have h : round ((FREQUENCY_OSCILLATOR : ℚ) / (4096 * 1000000)) = 0 := by
      rw [round_eq]
      norm_num [FREQUENCY_OSCILLATOR]
    unfold clampPrescale
    rw [h]
    norm_num [PCA9685_PRESCALE_MIN, PCA9685_PRESCALE_MAX]
  · show clampPrescale _ = 255
    have h : round ((FREQUENCY_OSCILLATOR : ℚ) / (4096 * (1/2))) = 12207 := by
      rw [round_eq]
      norm_num [FREQUENCY_OSCILLATOR]
    unfold clampPrescale
    rw [h]
    norm_num [PCA9685_PRESCALE_MIN, PCA9685_PRESCALE_MAX]

/-! ### Theorems for C2 -/

/-- C2: for every channel `num` and invert flag, `setPin(num, val, invert)`
maps the logical value to register state: `val >= 4096` yields the fully-on
encoding, `val == 0` yields the fully-off encoding (the two swapped when
`invert` is true), and any other `val` writes the pair `(0, val)` when
`invert` is false and `(4096 - val, 4095)` when `invert` is true. -/
theorem setPin_value_mapping (ch : ChannelState) (num val : ℕ) (invert : Bool) :
    (4096 ≤ val → setPin ch num val invert num = if invert then fullOff else fullOn) ∧
    (val = 0 → setPin ch num val invert num = if invert then fullOn else fullOff) ∧
    (0 < val → val < 4096 →
      setPin ch num val invert num = if invert then (4096 - val, 4095) else (0, val)) := by
  refine ⟨fun h => ?_, fun h => ?_, fun h1 h2 => ?_⟩
  · simp [setPin, setPWM, setPinPair, h]
  · simp [setPin, setPWM, setPinPair, h]
  · have hne : ¬ 4096 ≤ val := by omega
    have hz : ¬ val = 0 := by omega
    cases invert <;> simp [setPin, setPWM, setPinPair, hne, hz]

/-- Witness for C2: the three cases of the mapping at concrete inputs. -/
theorem setPin_value_mapping_witness :
    setPin (fun _ => (0, 0)) 0 5000 false 0 = fullOn ∧
    setPin (fun _ => (0, 0)) 0 0 true 0 = fullOn ∧
    setPin (fun _ => (0, 0)) 0 100 true 0 = (3996, 4095) := by
  refine ⟨?_, ?_, ?_⟩
  · simpa using (setPin_value_mapping (fun _ => (0, 0)) 0 5000 false).1 (by norm_num)
  · simpa using (setPin_value_mapping (fun _ => (0, 0)) 0 0 true).2.1 rfl
  · simpa using (setPin_value_mapping (fun _ => (0, 0)) 0 100 true).2.2 (by norm_num) (by norm_num)

/-! ### Theorems for C7 (corrected) -/

/-- C7 counterexample: `setPin(num, 4095, false)` does not leave the full-on
encoding `(on = 4096, off = 0)`; it writes the partial pair `(0, 4095)`,
because only `val >= 4096` selects the fully-on encoding. -/
theorem setPin_4095_not_fullOn :
    setPin (fun _ => (0, 0)) 0 4095 false 0 = (0, 4095) ∧
    setPin (fun _ => (0, 0)) 0 4095 false 0 ≠ fullOn := by
  constructor
  · simp [setPin, setPWM, setPinPair]
  · simp [setPin, setPWM, setPinPair, fullOn]

/-- C7 amended: `setPin(num, 0, false)` leaves the full-off encoding
(off tick 4096, on tick 0) and `setPin(num, val, false)` for `val ≥ 4096`
leaves the full-on encoding (on tick 4096, off tick 0); with `invert = true`
the two encodings are swapped.  `setPin(num, 4095, false)` leaves the partial
encoding `(0, 4095)`, not full-on. -/
theorem setPin_boundary_encodings (ch : ChannelState) (num val : ℕ) (hv : 4096 ≤ val) :
    setPin ch num 0 false num = fullOff ∧
    setPin ch num 0 true num = fullOn ∧
    setPin ch num val false num = fullOn ∧
    setPin ch num val true num = fullOff ∧
    setPin ch num 4095 false num = (0, 4095) ∧
    setPin ch num 4095 true num = (1, 4095) := by
  refine ⟨?_, ?_, ?_, ?_, ?_, ?_⟩ <;>
    simp [setPin, setPWM, setPinPair, hv]

/-- Witness for C7's amended theorem at `val = 4096` on channel 0. -/
theorem setPin_boundary_encodings_witness :
    setPin (fun _ => (0, 0)) 0 0 false 0 = fullOff ∧
    setPin (fun _ => (0, 0)) 0 0 true 0 = fullOn ∧
    setPin (fun _ => (0, 0)) 0 4096 false 0 = fullOn ∧
    setPin (fun _ => (0, 0)) 0 4096 true 0 = fullOff ∧
    setPin (fun _ => (0, 0)) 0 4095 false 0 = (0, 4095) ∧
    setPin (fun _ => (0, 0)) 0 4095 true 0 = (1, 4095) :=
  setPin_boundary_encodings (fun _ => (0, 0)) 0 4096 (by norm_num)

/-! ### Controller state and motor-level operations (C3, C4, C9, C10) -/

/-- Pin triple for one motor: the two direction inputs and the PWM channel. -/
structure MotorPins where
  in1 : ℕ
  in2 : ℕ
  pwm : ℕ
deriving DecidableEq

/-- In-memory state of a `MotorDriver_PCA9685` object: the I2C address and bus
handle, the one-time pin-initialization flag, the per-motor pin assignments,
the five direction-reversal flags and the stored oscillator frequency
(fields and in-class defaults from the header). -/
structure Controller where
  i2caddr : ℕ
  i2cbus : ℕ
  inited : Bool
  M1IN1 : ℕ
  M1IN2 : ℕ
  M1PWM : ℕ
  M2IN1 : ℕ
  M2IN2 : ℕ
  M2PWM : ℕ
  M3IN1 : ℕ
  M3IN2 : ℕ
  M3PWM : ℕ
  M4IN1 : ℕ
  M4IN2 : ℕ
  M4PWM : ℕ
  MOTORM1REVERSE : Bool
  MOTORM2REVERSE : Bool
  MOTORM3REVERSE : Bool
  MOTORM4REVERSE : Bool
  MOTORMALLREVERSE : Bool
  oscillator_freq : ℕ
deriving DecidableEq

/-- Modelled from the spec: the constructor bodies are not in the sources; the
spec says a constructor records the address and bus handle, while the header's
in-class initializers set `_inited = false` and all five reversal flags to
false.  The pin fields and `_oscillator_freq` have no initializer in the
header (they are set later by `initPin` / `begin`); the model uses 0. -/
def mkMotorDriver (addr bus : ℕ) : Controller :=
  { i2caddr := addr, i2cbus := bus, inited := false,
    M1IN1 := 0, M1IN2 := 0, M1PWM := 0,
    M2IN1 := 0, M2IN2 := 0, M2PWM := 0,
    M3IN1 := 0, M3IN2 := 0, M3PWM := 0,
    M4IN1 := 0, M4IN2 := 0, M4PWM := 0,
    MOTORM1REVERSE := false, MOTORM2REVERSE := false,
    MOTORM3REVERSE := false, MOTORM4REVERSE := false,
    MOTORMALLREVERSE := false,
    oscillator_freq := 0 }

/-- The zero-argument constructor: default I2C address, default bus. -/
def mkMotorDriverDefault : Controller :=
  mkMotorDriver PCA9685_I2C_ADDRESS 0

/-- The one-argument constructor: given address, default bus. -/
def mkMotorDriverAddr (addr : ℕ) : Controller :=
  mkMotorDriver addr 0

/-- Modelled from the spec: `initPin`'s body is not in the sources; the spec
says the pin-assignment table is fixed at first use (`_inited` flag guards the
one-time setup) with identifiers hardcoded per board wiring.  The concrete
channel numbers are not given, so the model uses a fixed assignment of twelve
distinct channels. -/
def initPin (c : Controller) : Controller :=
  { c with
    inited := true,
    M1IN1 := 0, M1IN2 := 1, M1PWM := 2,
    M2IN1 := 3, M2IN2 := 4, M2PWM := 5,
    M3IN1 := 6, M3IN2 := 7, M3PWM := 8,
    M4IN1 := 9, M4IN2 := 10, M4PWM := 11 }

/-- Lazy one-time pin initialization: run `initPin` unless already inited. -/
def ensureInit (c : Controller) : Controller :=
  if c.inited then c else initPin c

/-- Resolve the pin triple associated with a motor selector. -/
def motorPins (c : Controller) (motorNum : ℕ) : MotorPins :=
  if motorNum = M1 then ⟨c.M1IN1, c.M1IN2, c.M1PWM⟩
  else if motorNum = M2 then ⟨c.M2IN1, c.M2IN2, c.M2PWM⟩
  else if motorNum = M3 then ⟨c.M3IN1, c.M3IN2, c.M3PWM⟩
  else ⟨c.M4IN1, c.M4IN2, c.M4PWM⟩

/-- Resolve the per-motor reversal flag of a motor selector. -/
def motorReverse (c : Controller) (motorNum : ℕ) : Bool :=
  if motorNum = M1 then c.MOTORM1REVERSE
  else if motorNum = M2 then c.MOTORM2REVERSE
  else if motorNum = M3 then c.MOTORM3REVERSE
  else c.MOTORM4REVERSE

/-- Modelled from the spec: the duty cycle written for a signed speed is
proportional to `abs(speed)`; the factor 16 maps the conventional −255..255
speed range onto the 12-bit duty range. -/
def dutyOf (speed : ℤ) : ℕ := speed.natAbs * 16

/-- Drive one direction pin high (fully on) and the other low (fully off),
according to the resolved direction. -/
def driveDirPins (ch : ChannelState) (p : MotorPins) (forward : Bool) : ChannelState :=
  if forward then setPin (setPin ch p.in1 4096 false) p.in2 0 false
  else setPin (setPin ch p.in1 0 false) p.in2 4096 false

/-- Modelled from the spec: `setSingleMotor(motorNum, speed)`'s body is not in
the sources.  The spec: resolve the three associated pins (lazily initialized
via `initPin` on first use), combine the sign of `speed` with the per-motor
and global reversal flags to pick which direction pin is driven high/low, and
write a duty cycle proportional to `abs(speed)` to the PWM pin. -/
def setSingleMotor (c : Controller) (ch : ChannelState) (motorNum : ℕ) (speed : ℤ) :
    Controller × ChannelState :=
  let ci := ensureInit c
  let p := motorPins ci motorNum
  let rev := xor (motorReverse ci motorNum) ci.MOTORMALLREVERSE
  let forward := xor (decide (0 ≤ speed)) rev
  (ci, setPin (driveDirPins ch p forward) p.pwm (dutyOf speed) false)

/-- Set both direction pins low and the PWM duty to 0 for one pin triple. -/
def stopOnePins (ch : ChannelState) (p : MotorPins) : ChannelState :=
  setPin (setPin (setPin ch p.in1 0 false) p.in2 0 false) p.pwm 0 false

/-- Modelled from the spec: `stopMotor(motorNum)`'s body is not in the
sources.  The spec: set both direction pins low and PWM duty to 0; the `MAll`
selector applies this to all four motors. -/
def stopMotor (c : Controller) (ch : ChannelState) (motorNum : ℕ) :
    Controller × ChannelState :=
  let ci := ensureInit c
  if motorNum = MAll then
    (ci, stopOnePins (stopOnePins (stopOnePins (stopOnePins ch
      (motorPins ci M1)) (motorPins ci M2)) (motorPins ci M3)) (motorPins ci M4))
  else
    (ci, stopOnePins ch (motorPins ci motorNum))

/-- Modelled from the spec: the four-argument `setMotorDirReverse` overload is
a pure flag setter for the four per-motor reversal flags. -/
def setMotorDirReverse4 (c : Controller) (m1Dir m2Dir m3Dir m4Dir : Bool) : Controller :=
  { c with
    MOTORM1REVERSE := m1Dir, MOTORM2REVERSE := m2Dir,
    MOTORM3REVERSE := m3Dir, MOTORM4REVERSE := m4Dir }

/-- Modelled from the spec: the one-argument `setMotorDirReverse` overload is
a pure flag setter for the global reversal flag. -/
def setMotorDirReverseAll (c : Controller) (d : Bool) : Controller :=
  { c with MOTORMALLREVERSE := d }

/-- Modelled from the spec: `setOscillatorFrequency` is a pure calibration
accessor storing the frequency; no bus I/O. -/
def setOscillatorFrequency (c : Controller) (freq : ℕ) : Controller :=
  { c with oscillator_freq := freq }

/-- Modelled from the spec: `getOscillatorFrequency` is a pure calibration
accessor returning the stored frequency; no bus I/O. -/
def getOscillatorFrequency (c : Controller) : ℕ := c.oscillator_freq

/-! ### Helper lemmas about `setPin` and the motor operations -/

/-- Writing value 0 to a channel leaves that channel fully off. -/
theorem setPin_zero_self (ch : ChannelState) (n : ℕ) :
    setPin ch n 0 false n = fullOff := by
  simp [setPin, setPWM, setPinPair]

/-- Writing value 0 to any channel preserves "fully off" at a channel that was
already fully off. -/
theorem setPin_zero_keeps (ch : ChannelState) (n x : ℕ) (h : ch x = fullOff) :
    setPin ch n 0 false x = fullOff := by
  by_cases hx : x = n <;> simp [setPin, setPWM, setPinPair, hx, h]

/-- A `setPin` write leaves every other channel untouched. -/
theorem setPin_at_ne (ch : ChannelState) (n v : ℕ) (i : Bool) (x : ℕ) (h : x ≠ n) :
    setPin ch n v i x = ch x := by
  simp [setPin, setPWM, h]

/-- A `setPin` write leaves the target channel holding the mapped pair. -/
theorem setPin_at_self (ch : ChannelState) (n v : ℕ) (i : Bool) :
    setPin ch n v i n = setPinPair v i := by
  simp [setPin, setPWM]

/-- After `stopOnePins`, the first direction pin is fully off. -/
theorem stopOnePins_in1 (ch : ChannelState) (p : MotorPins) :
    stopOnePins ch p p.in1 = fullOff :=
  setPin_zero_keeps _ _ _ (setPin_zero_keeps _ _ _ (setPin_zero_self _ _))

/-- After `stopOnePins`, the second direction pin is fully off. -/
theorem stopOnePins_in2 (ch : ChannelState) (p : MotorPins) :
    stopOnePins ch p p.in2 = fullOff :=
  setPin_zero_keeps _ _ _ (setPin_zero_self _ _)

/-- After `stopOnePins`, the PWM pin is fully off. -/
theorem stopOnePins_pwm (ch : ChannelState) (p : MotorPins) :
    stopOnePins ch p p.pwm = fullOff :=
  setPin_zero_self _ _

/-- `stopOnePins` preserves "fully off" at any channel. -/
theorem stopOnePins_keeps (ch : ChannelState) (p : MotorPins) (x : ℕ)
    (h : ch x = fullOff) : stopOnePins ch p x = fullOff :=
  setPin_zero_keeps _ _ _ (setPin_zero_keeps _ _ _ (setPin_zero_keeps _ _ _ h))

/-- `ensureInit` does not change the M1 reversal flag. -/
theorem ensureInit_MOTORM1REVERSE (c : Controller) :
    (ensureInit c).MOTORM1REVERSE = c.MOTORM1REVERSE := by
  by_cases h : c.inited <;> simp [ensureInit, initPin, h]

/-- `ensureInit` does not change the global reversal flag. -/
theorem ensureInit_MOTORMALLREVERSE (c : Controller) :
    (ensureInit c).MOTORMALLREVERSE = c.MOTORMALLREVERSE := by
  by_cases h : c.inited <;> simp [ensureInit, initPin, h]

/-- `ensureInit` does not change the stored oscillator frequency. -/
theorem ensureInit_oscillator (c : Controller) :
    (ensureInit c).oscillator_freq = c.oscillator_freq := by
  by_cases h : c.inited <;> simp [ensureInit, initPin, h]

/-- Setting the reversal flags commutes with pin resolution: the flags do not
touch the pin table or the init flag. -/
theorem ensureInit_setRev4_pins (c : Controller) (b1 b2 b3 b4 : Bool) (m : ℕ) :
    motorPins (ensureInit (setMotorDirReverse4 c b1 b2 b3 b4)) m
      = motorPins (ensureInit c) m := by
  by_cases h : c.inited <;>
    simp [ensureInit, setMotorDirReverse4, initPin, motorPins, h]

/-- The second component of `setSingleMotor`, written out. -/
theorem setSingleMotor_eq (c : Controller) (ch : ChannelState) (m : ℕ) (s : ℤ) :
    (setSingleMotor c ch m s).2 =
      setPin
        (driveDirPins ch (motorPins (ensureInit c) m)
          (xor (decide (0 ≤ s))
            (xor (motorReverse (ensureInit c) m) (ensureInit c).MOTORMALLREVERSE)))
        (motorPins (ensureInit c) m).pwm (dutyOf s) false := rfl

/-- Reading the first direction pin after `driveDirPins`. -/
theorem driveDirPins_at_in1 (ch : ChannelState) (p : MotorPins)
    (h : p.in1 ≠ p.in2) (fwd : Bool) :
    driveDirPins ch p fwd p.in1 = if fwd then fullOn else fullOff := by
  cases fwd <;>
    simp [driveDirPins, setPin_at_ne _ _ _ _ _ h, setPin_at_self, setPinPair]

/-- Reading the second direction pin after `driveDirPins`. -/
theorem driveDirPins_at_in2 (ch : ChannelState) (p : MotorPins) (fwd : Bool) :
    driveDirPins ch p fwd p.in2 = if fwd then fullOff else fullOn := by
  cases fwd <;> simp [driveDirPins, setPin_at_self, setPinPair]

/-! ### Theorems for C3 -/

/-- C3: for every prior controller and chip state (any previously set speed,
direction or reversal flags), `stopMotor` on a single motor selector leaves
that motor's PWM duty at 0 and both its direction pins fully off (low), and
`stopMotor(MAll)` does so for all four motors. -/
theorem stopMotor_brakes (c : Controller) (ch : ChannelState) :
    (∀ m, m ≠ MAll →
      (stopMotor c ch m).2 (motorPins (ensureInit c) m).in1 = fullOff ∧
      (stopMotor c ch m).2 (motorPins (ensureInit c) m).in2 = fullOff ∧
      (stopMotor c ch m).2 (motorPins (ensureInit c) m).pwm = fullOff) ∧
    (∀ m, m = M1 ∨ m = M2 ∨ m = M3 ∨ m = M4 →
      (stopMotor c ch MAll).2 (motorPins (ensureInit c) m).in1 = fullOff ∧
      (stopMotor c ch MAll).2 (motorPins (ensureInit c) m).in2 = fullOff ∧
      (stopMotor c ch MAll).2 (motorPins (ensureInit c) m).pwm = fullOff) := by
  constructor
  · intro m hm
    simp only [stopMotor, if_neg hm]
    exact ⟨stopOnePins_in1 _ _, stopOnePins_in2 _ _, stopOnePins_pwm _ _⟩
  · intro m hm
    simp only [stopMotor, if_pos rfl]
    rcases hm with h | h | h | h <;> subst h <;>
      refine ⟨?_, ?_, ?_⟩ <;>
      solve_by_elim [stopOnePins_keeps, stopOnePins_in1, stopOnePins_in2, stopOnePins_pwm]

/-- Witness for C3: stopping M1 on a fresh controller leaves its first
direction pin fully off, and stopping all motors leaves M3's second direction
pin fully off. -/
theorem stopMotor_brakes_witness :
    M1 ≠ MAll ∧
    (stopMotor mkMotorDriverDefault (fun _ => (100, 200)) M1).2
      (motorPins (ensureInit mkMotorDriverDefault) M1).in1 = fullOff ∧
    (stopMotor mkMotorDriverDefault (fun _ => (100, 200)) MAll).2
      (motorPins (ensureInit mkMotorDriverDefault) M3).in2 = fullOff :=
  ⟨by decide,
   ((stopMotor_brakes mkMotorDriverDefault (fun _ => (100, 200))).1 M1 (by decide)).1,
   ((stopMotor_brakes mkMotorDriverDefault (fun _ => (100, 200))).2 M3
     (Or.inr (Or.inr (Or.inl rfl)))).2.1⟩

/-! ### Theorems for C4 -/

/-- C4: two-run property of direction reversal.  From the same starting state
(M1 and global reversal flags clear, M1's three pins distinct), running
`setMotorDirReverse(true,false,false,false)` followed by
`setSingleMotor(M1, 100)` drives the opposite direction-pin pair compared to
running `setSingleMotor(M1, 100)` alone — the high/low assignment of the two
direction pins is swapped and genuinely differs — while the PWM value written
to the PWM pin is identical in both runs. -/
theorem setMotorDirReverse_swaps_pins (c : Controller) (ch : ChannelState)
    (h1 : c.MOTORM1REVERSE = false) (hA : c.MOTORMALLREVERSE = false)
    (h12 : (motorPins (ensureInit c) M1).in1 ≠ (motorPins (ensureInit c) M1).in2)
    (hp1 : (motorPins (ensureInit c) M1).pwm ≠ (motorPins (ensureInit c) M1).in1)
    (hp2 : (motorPins (ensureInit c) M1).pwm ≠ (motorPins (ensureInit c) M1).in2) :
    (setSingleMotor (setMotorDirReverse4 c true false false false) ch M1 100).2
        (motorPins (ensureInit c) M1).in1
      = (setSingleMotor c ch M1 100).2 (motorPins (ensureInit c) M1).in2 ∧
    (setSingleMotor (setMotorDirReverse4 c true false false false) ch M1 100).2
        (motorPins (ensureInit c) M1).in2
      = (setSingleMotor c ch M1 100).2 (motorPins (ensureInit c) M1).in1 ∧
    (setSingleMotor (setMotorDirReverse4 c true false false false) ch M1 100).2
        (motorPins (ensureInit c) M1).pwm
      = (setSingleMotor c ch M1 100).2 (motorPins (ensureInit c) M1).pwm ∧
    (setSingleMotor c ch M1 100).2 (motorPins (ensureInit c) M1).in1
      ≠ (setSingleMotor c ch M1 100).2 (motorPins (ensureInit c) M1).in2 := by
  have hrev2 : motorReverse (ensureInit c) M1 = false := by
    simp [motorReverse, ensureInit_MOTORM1REVERSE, h1]
  have hrev1 : motorReverse (ensureInit (setMotorDirReverse4 c true false false false)) M1
      = true := by
    simp [motorReverse, ensureInit_MOTORM1REVERSE, setMotorDirReverse4]
  have hall1 : (ensureInit (setMotorDirReverse4 c true false false false)).MOTORMALLREVERSE
      = false := by
    simp [ensureInit_MOTORMALLREVERSE, setMotorDirReverse4, hA]
  have hall2 : (ensureInit c).MOTORMALLREVERSE = false := by
    simp [ensureInit_MOTORMALLREVERSE, hA]
  rw [setSingleMotor_eq, setSingleMotor_eq, ensureInit_setRev4_pins,
    hrev1, hrev2, hall1, hall2]
  refine ⟨?_, ?_, ?_, ?_⟩
  · rw [setPin_at_ne _ _ _ _ _ (Ne.symm hp1), setPin_at_ne _ _ _ _ _ (Ne.symm hp2),
      driveDirPins_at_in1 _ _ h12, driveDirPins_at_in2]
    decide
  · rw [setPin_at_ne _ _ _ _ _ (Ne.symm hp2), setPin_at_ne _ _ _ _ _ (Ne.symm hp1),
      driveDirPins_at_in2, driveDirPins_at_in1 _ _ h12]
    decide
  · rw [setPin_at_self, setPin_at_self]
  · rw [setPin_at_ne _ _ _ _ _ (Ne.symm hp1), setPin_at_ne _ _ _ _ _ (Ne.symm hp2),
      driveDirPins_at_in1 _ _ h12, driveDirPins_at_in2]
    simp [fullOn, fullOff]

/-- Witness for C4 on a fresh controller: its flags are clear and the default
pin table is distinct, so the reversal swaps the direction pins while the PWM
write stays the same. -/
theorem setMotorDirReverse_swaps_pins_witness :
    mkMotorDriverDefault.MOTORM1REVERSE = false ∧
    mkMotorDriverDefault.MOTORMALLREVERSE = false ∧
    (motorPins (ensureInit mkMotorDriverDefault) M1).in1
      ≠ (motorPins (ensureInit mkMotorDriverDefault) M1).in2 ∧
    (setSingleMotor (setMotorDirReverse4 mkMotorDriverDefault true false false false)
        (fun _ => (0, 0)) M1 100).2 (motorPins (ensureInit mkMotorDriverDefault) M1).in1
      = (setSingleMotor mkMotorDriverDefault (fun _ => (0, 0)) M1 100).2
          (motorPins (ensureInit mkMotorDriverDefault) M1).in2 ∧
    (setSingleMotor (setMotorDirReverse4 mkMotorDriverDefault true false false false)
        (fun _ => (0, 0)) M1 100).2 (motorPins (ensureInit mkMotorDriverDefault) M1).pwm
      = (setSingleMotor mkMotorDriverDefault (fun _ => (0, 0)) M1 100).2
          (motorPins (ensureInit mkMotorDriverDefault) M1).pwm :=
  ⟨rfl, rfl, by decide,
   (setMotorDirReverse_swaps_pins mkMotorDriverDefault (fun _ => (0, 0)) rfl rfl
     (by decide) (by decide) (by decide)).1,
   (setMotorDirReverse_swaps_pins mkMotorDriverDefault (fun _ => (0, 0)) rfl rfl
     (by decide) (by decide) (by decide)).2.2.1⟩

/-! ### Bus operations and the `setPWMFreq` write sequence (C5, C8, C9) -/

/-- A bus operation: a one-byte register write or a one-byte register read. -/
inductive BusOp where
  | wr (reg val : ℕ) : BusOp
  | rd (reg : ℕ) : BusOp
deriving DecidableEq

/-- The register an operation touches. -/
def regOfOp : BusOp → ℕ
  | BusOp.wr r _ => r
  | BusOp.rd r => r

/-- The value held by MODE1 after applying a list of bus operations, starting
from `init`. -/
def mode1After (init : ℕ) (ops : List BusOp) : ℕ :=
  ops.foldl
    (fun m op =>
      match op with
      | BusOp.wr r v => if r = PCA9685_MODE1 then v else m
      | BusOp.rd _ => m)
    init

/-- The sleep bit (`MODE1_SLEEP = 0x10`, bit 4) of a MODE1 value. -/
def sleepBitSet (m : ℕ) : Bool := m.testBit 4

/-- The restart bit (`MODE1_RESTART = 0x80`, bit 7) of a MODE1 value. -/
def restartBitSet (m : ℕ) : Bool := m.testBit 7

/-- Every write to the prescale register in the list happens while the tracked
MODE1 value has the sleep bit set. -/
def prescaleWritesInSleep : ℕ → List BusOp → Bool
  | _, [] => true
  | m, BusOp.wr r v :: rest =>
      (if r = PCA9685_PRESCALE then sleepBitSet m else true) &&
        prescaleWritesInSleep (if r = PCA9685_MODE1 then v else m) rest
  | m, BusOp.rd _ :: rest => prescaleWritesInSleep m rest

/-- Modelled from the spec: the bus write sequence of `setPWMFreq`, whose body
is not in the sources — put the chip to sleep (set `MODE1_SLEEP` in MODE1),
write the computed prescale to the prescale register, wake (clear
`MODE1_SLEEP`), then restart (set `MODE1_RESTART`, with auto-increment kept
enabled as configured by `begin`).  `oldmode` is the MODE1 value read back
before the sequence. -/
def setPWMFreqOps (oldmode osc : ℕ) (freq : ℚ) : List BusOp :=
  let p := (setPWMFreqPrescale osc freq).toNat
  let sleepMode := oldmode % 256 ||| MODE1_SLEEP
  let wakeMode := oldmode % 256 &&& (255 - MODE1_SLEEP)
  [BusOp.wr PCA9685_MODE1 sleepMode,
   BusOp.wr PCA9685_PRESCALE p,
   BusOp.wr PCA9685_MODE1 wakeMode,
   BusOp.wr PCA9685_MODE1 (wakeMode ||| MODE1_RESTART ||| MODE1_AI)]

/-! ### Theorems for C5 -/

/-- C5: `setPWMFreq` observes the sleep invariant: for every prior MODE1 value,
its bus sequence writes the prescale register only while the tracked MODE1
state has the sleep bit set; the sequence is sleep write, prescale write, wake
write, restart write in that order (MODE1, PRESCALE, MODE1, MODE1), the sleep
bit is set right after the first write, and after the whole sequence the chip
is awake (sleep bit clear) and restarted (restart bit set). -/
theorem setPWMFreq_sleep_invariant (oldmode osc : ℕ) (freq : ℚ) :
    prescaleWritesInSleep oldmode (setPWMFreqOps oldmode osc freq) = true ∧
    (setPWMFreqOps oldmode osc freq).map regOfOp
      = [PCA9685_MODE1, PCA9685_PRESCALE, PCA9685_MODE1, PCA9685_MODE1] ∧
    sleepBitSet (mode1After oldmode ((setPWMFreqOps oldmode osc freq).take 1)) = true ∧
    sleepBitSet (mode1After oldmode (setPWMFreqOps oldmode osc freq)) = false ∧
    restartBitSet (mode1After oldmode (setPWMFreqOps oldmode osc freq)) = true := by
  have t16 : Nat.testBit (MODE1_SLEEP) 4 = true := by decide
  have t239 : Nat.testBit 239 4 = false := by decide
  have tr4 : Nat.testBit (MODE1_RESTART) 4 = false := by decide
  have ta4 : Nat.testBit (MODE1_AI) 4 = false := by decide
  have tr7 : Nat.testBit (MODE1_RESTART) 7 = true := by decide
  refine ⟨?_, rfl, ?_, ?_, ?_⟩
  · simp [setPWMFreqOps, prescaleWritesInSleep, sleepBitSet, PCA9685_MODE1,
      PCA9685_PRESCALE, Nat.testBit_lor, t16]
  · simp [setPWMFreqOps, mode1After, sleepBitSet, PCA9685_MODE1,
      Nat.testBit_lor, t16]
  · simp [setPWMFreqOps, mode1After, sleepBitSet, PCA9685_MODE1, MODE1_SLEEP,
      Nat.testBit_lor, Nat.testBit_land, t239, tr4, ta4, MODE1_RESTART, MODE1_AI]
    decide
  · simp [setPWMFreqOps, mode1After, restartBitSet, PCA9685_MODE1,
      Nat.testBit_lor, tr7]

/-! ### writeMicroseconds tick conversion (C6) -/

/-- Length in microseconds of one PWM tick at the given oscillator frequency
and prescale: `1000000 * (prescale + 1) / osc`. -/
def tickLengthUs (osc prescale : ℕ) : ℚ := (1000000 * (prescale + 1) : ℚ) / osc

/-- Modelled from the spec: `writeMicroseconds(num, us)`'s conversion of a
microsecond pulse width to a 12-bit tick count using the oscillator frequency
and `readPrescale() + 1`; the `prescale` argument stands for the value
`readPrescale()` returns. -/
def microsecondsToTicks (osc prescale : ℕ) (us : ℚ) : ℤ :=
  ⌊us / tickLengthUs osc prescale⌋

/-- Convert a tick count back to a microsecond pulse width. -/
def ticksToMicroseconds (osc prescale : ℕ) (t : ℤ) : ℚ :=
  t * tickLengthUs osc prescale

/-! ### Theorems for C6 -/

/-- C6: round trip of `writeMicroseconds` — for every fixed prescale and
positive oscillator frequency, converting a microsecond pulse width to a tick
count and back reproduces the input within one tick's worth of rounding
error. -/
theorem writeMicroseconds_roundtrip (osc prescale : ℕ) (us : ℚ) (hosc : 0 < osc) :
    0 ≤ us - ticksToMicroseconds osc prescale (microsecondsToTicks osc prescale us) ∧
    us - ticksToMicroseconds osc prescale (microsecondsToTicks osc prescale us)
      < tickLengthUs osc prescale := by
  have hL : 0 < tickLengthUs osc prescale := by
    apply div_pos
    · positivity
    · exact_mod_cast hosc
  have key : us - ticksToMicroseconds osc prescale (microsecondsToTicks osc prescale us)
      = Int.fract (us / tickLengthUs osc prescale) * tickLengthUs osc prescale := by
    unfold ticksToMicroseconds microsecondsToTicks Int.fract
    field_simp
    ring
  rw [key]
  constructor
  · exact mul_nonneg (Int.fract_nonneg _) hL.le
  · calc Int.fract (us / tickLengthUs osc prescale) * tickLengthUs osc prescale
        < 1 * tickLengthUs osc prescale :=
          mul_lt_mul_of_pos_right (Int.fract_lt_one _) hL
    _ = tickLengthUs osc prescale := one_mul _

/-- Witness for C6 at the default oscillator frequency, prescale 121 (≈50 Hz)
and a 1500 µs servo pulse. -/
theorem writeMicroseconds_roundtrip_witness :
    0 < 25000000 ∧
    0 ≤ (1500 : ℚ)
      - ticksToMicroseconds 25000000 121 (microsecondsToTicks 25000000 121 1500) ∧
    (1500 : ℚ) - ticksToMicroseconds 25000000 121 (microsecondsToTicks 25000000 121 1500)
      < tickLengthUs 25000000 121 :=
  ⟨by norm_num,
   (writeMicroseconds_roundtrip 25000000 121 1500 (by norm_num)).1,
   (writeMicroseconds_roundtrip 25000000 121 1500 (by norm_num)).2⟩

/-! ### getPWM read granularity (C8) -/

/-- Modelled from the spec: `getPWM(num)` issues a single one-byte read of the
channel's OFF_L register; it does not read the full 4-byte channel state. -/
def getPWMReadOps (num : ℕ) : List BusOp :=
  [BusOp.rd (PCA9685_LED0_OFF_L + 4 * num)]

/-- The four registers holding a channel's full (ON_L, ON_H, OFF_L, OFF_H)
state. -/
def channelRegs (num : ℕ) : List ℕ :=
  [PCA9685_LED0_ON_L + 4 * num, PCA9685_LED0_ON_H + 4 * num,
   PCA9685_LED0_OFF_L + 4 * num, PCA9685_LED0_OFF_H + 4 * num]

/-- Modelled from the spec: the value `getPWM` returns — the low byte of the
channel's off tick only. -/
def getPWM (ch : ChannelState) (num : ℕ) : ℕ := (ch num).2 % 256

/-! ### Theorems for C8 -/

/-- C8: for every channel `num`, `getPWM(num)` reads back exactly one byte —
the OFF_L register of that channel — not the full 4-byte channel state, and
its result is the low byte of the channel's off tick only. -/
theorem getPWM_reads_one_byte (ch : ChannelState) (num : ℕ) :
    (getPWMReadOps num).length = 1 ∧
    (getPWMReadOps num).map regOfOp = [PCA9685_LED0_OFF_L + 4 * num] ∧
    (getPWMReadOps num).length ≠ (channelRegs num).length ∧
    (PCA9685_LED0_OFF_L + 4 * num) ∈ channelRegs num ∧
    getPWM ch num = (ch num).2 % 256 := by
  refine ⟨rfl, rfl, by simp [getPWMReadOps, channelRegs], ?_, rfl⟩
  simp [channelRegs]

/-! ### Oscillator calibration accessors (C9) -/

/-- Modelled from the spec: `setOscillatorFrequency` performs no bus I/O; its
bus trace is empty. -/
def setOscillatorFrequencyOps : List BusOp := []

/-- Modelled from the spec: `getOscillatorFrequency` performs no bus I/O; its
bus trace is empty. -/
def getOscillatorFrequencyOps : List BusOp := []

/-- Two controllers agree on every stored field except possibly the oscillator
frequency. -/
def sameExceptOscillator (c d : Controller) : Prop :=
  c.i2caddr = d.i2caddr ∧ c.i2cbus = d.i2cbus ∧ c.inited = d.inited ∧
  c.M1IN1 = d.M1IN1 ∧ c.M1IN2 = d.M1IN2 ∧ c.M1PWM = d.M1PWM ∧
  c.M2IN1 = d.M2IN1 ∧ c.M2IN2 = d.M2IN2 ∧ c.M2PWM = d.M2PWM ∧
  c.M3IN1 = d.M3IN1 ∧ c.M3IN2 = d.M3IN2 ∧ c.M3PWM = d.M3PWM ∧
  c.M4IN1 = d.M4IN1 ∧ c.M4IN2 = d.M4IN2 ∧ c.M4PWM = d.M4PWM ∧
  c.MOTORM1REVERSE = d.MOTORM1REVERSE ∧ c.MOTORM2REVERSE = d.MOTORM2REVERSE ∧
  c.MOTORM3REVERSE = d.MOTORM3REVERSE ∧ c.MOTORM4REVERSE = d.MOTORM4REVERSE ∧
  c.MOTORMALLREVERSE = d.MOTORMALLREVERSE

/-! ### Theorems for C9 -/

/-- C9: frame property of the oscillator-calibration accessors — both perform
no bus I/O (empty bus traces), `setOscillatorFrequency` changes no controller
state other than the stored oscillator frequency, and after
`setOscillatorFrequency(freq)` the getter returns `freq` and keeps returning
it across the other controller operations (flag setters, pin initialization,
motor drive and stop) until the next set. -/
theorem oscillator_accessors_frame (c : Controller) (ch : ChannelState) (f : ℕ)
    (b1 b2 b3 b4 d : Bool) (m : ℕ) (s : ℤ) :
    setOscillatorFrequencyOps = ([] : List BusOp) ∧
    getOscillatorFrequencyOps = ([] : List BusOp) ∧
    getOscillatorFrequency (setOscillatorFrequency c f) = f ∧
    sameExceptOscillator (setOscillatorFrequency c f) c ∧
    getOscillatorFrequency
      (setMotorDirReverse4 (setOscillatorFrequency c f) b1 b2 b3 b4) = f ∧
    getOscillatorFrequency (setMotorDirReverseAll (setOscillatorFrequency c f) d) = f ∧
    getOscillatorFrequency (ensureInit (setOscillatorFrequency c f)) = f ∧
    getOscillatorFrequency ((setSingleMotor (setOscillatorFrequency c f) ch m s).1) = f ∧
    getOscillatorFrequency ((stopMotor (setOscillatorFrequency c f) ch m).1) = f := by
  refine ⟨rfl, rfl, rfl, ?_, rfl, rfl, ?_, ?_, ?_⟩
  · exact ⟨rfl, rfl, rfl, rfl, rfl, rfl, rfl, rfl, rfl, rfl, rfl, rfl, rfl, rfl,
      rfl, rfl, rfl, rfl, rfl, rfl⟩
  · rw [show getOscillatorFrequency (ensureInit (setOscillatorFrequency c f))
        = (ensureInit (setOscillatorFrequency c f)).oscillator_freq from rfl,
      ensureInit_oscillator]
    rfl
  · rw [show (setSingleMotor (setOscillatorFrequency c f) ch m s).1
        = ensureInit (setOscillatorFrequency c f) from rfl,
      show getOscillatorFrequency (ensureInit (setOscillatorFrequency c f))
        = (ensureInit (setOscillatorFrequency c f)).oscillator_freq from rfl,
      ensureInit_oscillator]
    rfl
  · by_cases hm : m = MAll <;>
      simp [stopMotor, hm, getOscillatorFrequency, ensureInit_oscillator,
        setOscillatorFrequency]

/-! ### Fresh-construction invariants (C10) -/

/-- All five direction-reversal flags of a controller are clear. -/
def reverseFlagsClear (c : Controller) : Prop :=
  c.MOTORM1REVERSE = false ∧ c.MOTORM2REVERSE = false ∧ c.MOTORM3REVERSE = false ∧
  c.MOTORM4REVERSE = false ∧ c.MOTORMALLREVERSE = false

/-! ### Theorems for C10 -/

/-- C10: every freshly constructed controller (any of the three constructors)
has `_inited = false` and all five direction-reversal flags false; consequently
the first motor-level call performs the one-time pin initialization
(`ensureInit` runs `initPin` and the flag becomes true), and with no
`setMotorDirReverse` call a non-negative speed drives the non-reversed
direction: the first direction pin high (fully on) and the second low (fully
off). -/
theorem fresh_controller_state (addr bus : ℕ) (ch : ChannelState) (speed : ℤ)
    (hs : 0 ≤ speed) :
    (mkMotorDriverDefault.inited = false ∧ reverseFlagsClear mkMotorDriverDefault) ∧
    ((mkMotorDriverAddr addr).inited = false ∧
      reverseFlagsClear (mkMotorDriverAddr addr)) ∧
    ((mkMotorDriver addr bus).inited = false ∧
      reverseFlagsClear (mkMotorDriver addr bus)) ∧
    ensureInit (mkMotorDriver addr bus) = initPin (mkMotorDriver addr bus) ∧
    (setSingleMotor (mkMotorDriver addr bus) ch M1 speed).1.inited = true ∧
    (setSingleMotor (mkMotorDriver addr bus) ch M1 speed).2
      (motorPins (initPin (mkMotorDriver addr bus)) M1).in1 = fullOn ∧
    (setSingleMotor (mkMotorDriver addr bus) ch M1 speed).2
      (motorPins (initPin (mkMotorDriver addr bus)) M1).in2 = fullOff := by
  have hfwd : decide (0 ≤ speed) = true := decide_eq_true hs
  refine ⟨⟨rfl, rfl, rfl, rfl, rfl, rfl⟩, ⟨rfl, rfl, rfl, rfl, rfl, rfl⟩,
    ⟨rfl, rfl, rfl, rfl, rfl, rfl⟩, rfl, rfl, ?_, ?_⟩
  · simp [setSingleMotor, ensureInit, mkMotorDriver, initPin, motorPins,
      motorReverse, driveDirPins, setPin, setPWM, setPinPair, hfwd, M1]
  · simp [setSingleMotor, ensureInit, mkMotorDriver, initPin, motorPins,
      motorReverse, driveDirPins, setPin, setPWM, setPinPair, hfwd, M1]

/-- Witness for C10 at address 1, bus 2, a zeroed chip and speed 100. -/
theorem fresh_controller_state_witness :
    (0 : ℤ) ≤ 100 ∧
    (setSingleMotor (mkMotorDriver 1 2) (fun _ => (0, 0)) M1 100).2
      (motorPins (initPin (mkMotorDriver 1 2)) M1).in1 = fullOn ∧
    (setSingleMotor (mkMotorDriver 1 2) (fun _ => (0, 0)) M1 100).2
      (motorPins (initPin (mkMotorDriver 1 2)) M1).in2 = fullOff :=
  ⟨by norm_num,
   (fresh_controller_state 1 2 (fun _ => (0, 0)) 100 (by norm_num)).2.2.2.2.2.1,
   (fresh_controller_state 1 2 (fun _ => (0, 0)) 100 (by norm_num)).2.2.2.2.2.2⟩

end PCA9685
